import Mathlib

/-!
Formal model of the hanks_tank_ml V4 training pipeline.

The definitions below are shallow embeddings of the Python functions in
src/train_v4_models.py, src/train_v4_tuned.py and src/predict_2026_games.py.
A year column is a list of optional integers (a missing entry models a
pandas NaN); row indices are the default range index 0, 1, ....
-/

namespace HanksTank

/-- Pandas semantics of comparing a possibly missing year with a bucket:
a missing value (NaN) compares false under the strict order. -/
def yearLt (x : Option ℤ) (y : ℤ) : Bool :=
  match x with
  | none => false
  | some v => decide (v < y)

/-- Pandas semantics of equality between a possibly missing year and a
bucket: a missing value (NaN) compares false under equality. -/
def yearEq (x : Option ℤ) (y : ℤ) : Bool :=
  match x with
  | none => false
  | some v => decide (v = y)

/-- Indices of the rows whose year satisfies a predicate: the embedding of
df.index[mask].to_numpy() for a boolean mask over the year column, with the
default range index. -/
def idxWhere (rows : List (Option ℤ)) (p : Option ℤ → Bool) : List ℕ :=
  (List.range rows.length).filter (fun i => p (rows.getD i none))

/-- df.index[df["year"] < year].to_numpy() from time_folds. -/
def trainIdx (rows : List (Option ℤ)) (y : ℤ) : List ℕ :=
  idxWhere rows (fun x => yearLt x y)

/-- df.index[df["year"] == year].to_numpy() from time_folds. -/
def valIdx (rows : List (Option ℤ)) (y : ℤ) : List ℕ :=
  idxWhere rows (fun x => yearEq x y)

/-- One emitted fold: the (train_idx, val_idx, year) tuple of time_folds. -/
structure Fold where
  train : List ℕ
  val : List ℕ
  year : ℤ
deriving DecidableEq

/-- sorted(df["year"].dropna().unique()): the ascending list of distinct
non-missing year values. -/
def distinctYears (rows : List (Option ℤ)) : List ℤ :=
  ((rows.filterMap id).dedup).insertionSort (fun a b => a ≤ b)

/-- The emission loop of time_folds: one candidate fold per bucket year,
appended only when both its train index set and its validate index set are
nonempty. -/
def foldsFor (rows : List (Option ℤ)) (foldYears : List ℤ) : List Fold :=
  foldYears.filterMap (fun y =>
    if trainIdx rows y ≠ [] ∧ valIdx rows y ≠ [] then
      some { train := trainIdx rows y, val := valIdx rows y, year := y }
    else none)

/-- V4StackedTrainer.time_folds (train_v4_models.py) and the identical
time_folds of train_v4_tuned.py: none models the Python None return that
triggers the StratifiedKFold fallback; start_index = 3 skips the first
three distinct years. -/
def time_folds (hasYearCol : Bool) (rows : List (Option ℤ)) : Option (List Fold) :=
  if hasYearCol = false then none
  else if (distinctYears rows).length < 5 then none
  else some (foldsFor rows ((distinctYears rows).drop 3))

theorem yearLt_iff (x : Option ℤ) (y : ℤ) :
    yearLt x y = true ↔ ∃ v, x = some v ∧ v < y := by
  cases x <;> simp [yearLt]

theorem yearEq_iff (x : Option ℤ) (y : ℤ) :
    yearEq x y = true ↔ x = some y := by
  cases x <;> simp [yearEq]

theorem mem_idxWhere {rows : List (Option ℤ)} {p : Option ℤ → Bool} {i : ℕ} :
    i ∈ idxWhere rows p ↔ i < rows.length ∧ p (rows.getD i none) = true := by
  simp [idxWhere, List.mem_filter, List.mem_range]

theorem mem_valIdx {rows : List (Option ℤ)} {y : ℤ} {i : ℕ} :
    i ∈ valIdx rows y ↔ i < rows.length ∧ rows.getD i none = some y := by
  rw [valIdx, mem_idxWhere, yearEq_iff]

theorem mem_trainIdx {rows : List (Option ℤ)} {y : ℤ} {j : ℕ} :
    j ∈ trainIdx rows y ↔ j < rows.length ∧ ∃ v, rows.getD j none = some v ∧ v < y := by
  rw [trainIdx, mem_idxWhere, yearLt_iff]

theorem mem_foldsFor {rows : List (Option ℤ)} {ys : List ℤ} {f : Fold}
    (h : f ∈ foldsFor rows ys) :
    f.year ∈ ys ∧ f.train = trainIdx rows f.year ∧ f.val = valIdx rows f.year ∧
      f.train ≠ [] ∧ f.val ≠ [] := by
  rcases List.mem_filterMap.mp h with ⟨y, hy, hsome⟩
  by_cases hc : trainIdx rows y ≠ [] ∧ valIdx rows y ≠ []
  · rw [if_pos hc] at hsome
    cases hsome
    exact ⟨hy, rfl, rfl, hc.1, hc.2⟩
  · rw [if_neg hc] at hsome
    cases hsome

theorem time_folds_eq {hy : Bool} {rows : List (Option ℤ)} {fs : List Fold}
    (h : time_folds hy rows = some fs) :
    hy = true ∧ 5 ≤ (distinctYears rows).length ∧
      fs = foldsFor rows ((distinctYears rows).drop 3) := by
  unfold time_folds at h
  by_cases h1 : hy = false
  · rw [if_pos h1] at h; cases h
  · rw [if_neg h1] at h
    by_cases h2 : (distinctYears rows).length < 5
    · rw [if_pos h2] at h; cases h
    · rw [if_neg h2] at h
      cases h
      exact ⟨by revert h1; cases hy <;> simp, Nat.le_of_not_lt h2, rfl⟩

/-- Claim C1: in time-based fold mode, every row of a fold validate index
set carries exactly the fold bucket year, and every row of that fold train
index set carries a year strictly smaller than the bucket, hence strictly
smaller than every validate row year. -/
theorem C1_time_folds_no_leakage
    (hy : Bool) (rows : List (Option ℤ)) (fs : List Fold)
    (hfs : time_folds hy rows = some fs)
    (f : Fold) (hf : f ∈ fs)
    (i : ℕ) (hi : i ∈ f.val) (j : ℕ) (hj : j ∈ f.train) :
    rows.getD i none = some f.year ∧
      ∃ v, rows.getD j none = some v ∧ v < f.year := by
  obtain ⟨-, -, hfsval⟩ := time_folds_eq hfs
  subst hfsval
  obtain ⟨-, htr, hva, -, -⟩ := mem_foldsFor hf
  rw [hva] at hi
  rw [htr] at hj
  exact ⟨(mem_valIdx.mp hi).2, (mem_trainIdx.mp hj).2⟩

/-- A concrete five year dataset for the fold generator witnesses. -/
def rowsFive : List (Option ℤ) :=
  [some 2015, some 2016, some 2017, some 2018, some 2019]

/-- The folds time_folds emits on rowsFive. -/
def foldsFive : List Fold :=
  [{ train := [0, 1, 2], val := [3], year := 2018 },
   { train := [0, 1, 2, 3], val := [4], year := 2019 }]

/-- Witness for claim C1 at a concrete dataset. -/
theorem C1_witness :
    rowsFive.getD 3 none = some 2018 ∧
      ∃ v, rowsFive.getD 0 none = some v ∧ v < 2018 :=
  C1_time_folds_no_leakage true rowsFive foldsFive (by decide)
    { train := [0, 1, 2], val := [3], year := 2018 } (by decide)
    3 (by decide) 0 (by decide)

theorem time_folds_eq_none_iff {hy : Bool} {rows : List (Option ℤ)} :
    time_folds hy rows = none ↔ hy = false ∨ (distinctYears rows).length < 5 := by
  unfold time_folds
  split_ifs with h1 h2
  · simp [h1]
  · simp [h2]
  · simp [h1, h2]

/-- The two fold strategies of get_oof_predictions and cv_score_auc: either
the time based folds, or StratifiedKFold(n_splits=5, shuffle=True,
random_state=42) recorded here by its constructor arguments. -/
inductive FoldStrategy where
  | timeBased : List Fold → FoldStrategy
  | stratified : ℕ → Bool → ℕ → FoldStrategy
deriving DecidableEq

/-- The strategy choice of get_oof_predictions (train_v4_models.py lines
137-140) and of cv_score_auc / cv_score_accuracy (train_v4_tuned.py): use
the time based folds when time_folds returns them, otherwise fall back to
the seeded stratified splitter. -/
def chooseFolds (hasYearCol : Bool) (rows : List (Option ℤ)) : FoldStrategy :=
  match time_folds hasYearCol rows with
  | some fs => FoldStrategy.timeBased fs
  | none => FoldStrategy.stratified 5 true 42

/-- Claim C3: the fold strategy selection is exhaustive, mutually exclusive
and deterministic: the seeded 5 fold stratified fallback is chosen exactly
when the year column is absent or fewer than 5 distinct years exist;
otherwise the time based folds are chosen, and every emitted time fold has
a nonempty train index set (an empty train bucket is skipped). -/
theorem C3_fold_strategy_selection (hy : Bool) (rows : List (Option ℤ)) :
    (chooseFolds hy rows = FoldStrategy.stratified 5 true 42 ↔
      hy = false ∨ (distinctYears rows).length < 5) ∧
    (∀ fs, chooseFolds hy rows = FoldStrategy.timeBased fs →
      fs = foldsFor rows ((distinctYears rows).drop 3) ∧
        ∀ f ∈ fs, f.train ≠ [] ∧ f.val ≠ []) ∧
    ((∃ fs, chooseFolds hy rows = FoldStrategy.timeBased fs) ↔
      ¬ chooseFolds hy rows = FoldStrategy.stratified 5 true 42) := by
  refine ⟨⟨fun h => ?_, fun h => ?_⟩, fun fs h => ?_, ⟨fun h => ?_, fun h => ?_⟩⟩
  · cases hT : time_folds hy rows with
    | none => exact time_folds_eq_none_iff.mp hT
    | some gs => simp [chooseFolds, hT] at h
  · simp [chooseFolds, time_folds_eq_none_iff.mpr h]
  · cases hT : time_folds hy rows with
    | none => simp [chooseFolds, hT] at h
    | some gs =>
      simp [chooseFolds, hT] at h
      subst h
      refine ⟨(time_folds_eq hT).2.2, fun f hf => ?_⟩
      rw [(time_folds_eq hT).2.2] at hf
      obtain ⟨-, -, -, h4, h5⟩ := mem_foldsFor hf
      exact ⟨h4, h5⟩
  · rcases h with ⟨fs, hfs⟩
    intro hc
    rw [hfs] at hc
    cases hc
  · cases hT : time_folds hy rows with
    | none => exact absurd (by simp [chooseFolds, hT]) h
    | some gs => exact ⟨gs, by simp [chooseFolds, hT]⟩

/-- Witness for claim C3: with no year column the fallback is the seeded
five fold stratified splitter. -/
theorem C3_witness :
    chooseFolds false rowsFive = FoldStrategy.stratified 5 true 42 :=
  (C3_fold_strategy_selection false rowsFive).1.mpr (Or.inl rfl)

/-- V4StackedTrainer.run lines 196-198: after stacking, every base model is
refit on the whole of X_train, i.e. on every history row index. -/
def fullRefitRows (n : ℕ) : List ℕ := List.range n

/-- Claim C10: a history row whose year is missing (NaN) is in no emitted
time fold, neither as a train index nor as a validate index, yet it is
among the rows used when the base models are refit on the full history
partition. -/
theorem C10_nan_year_rows_excluded
    (hy : Bool) (rows : List (Option ℤ)) (fs : List Fold)
    (hfs : time_folds hy rows = some fs)
    (i : ℕ) (hlen : i < rows.length) (hnan : rows.getD i none = none) :
    (∀ f ∈ fs, i ∉ f.train ∧ i ∉ f.val) ∧ i ∈ fullRefitRows rows.length := by
  obtain ⟨-, -, hfsval⟩ := time_folds_eq hfs
  subst hfsval
  refine ⟨fun f hf => ?_, List.mem_range.mpr hlen⟩
  obtain ⟨-, htr, hva, -, -⟩ := mem_foldsFor hf
  constructor
  · intro hmem
    rw [htr] at hmem
    obtain ⟨-, v, hv, -⟩ := mem_trainIdx.mp hmem
    rw [hnan] at hv
    cases hv
  · intro hmem
    rw [hva] at hmem
    obtain ⟨-, hv⟩ := mem_valIdx.mp hmem
    rw [hnan] at hv
    cases hv

/-- A concrete dataset with five distinct years and one NaN year row. -/
def rowsWithNan : List (Option ℤ) :=
  [some 2015, some 2016, some 2017, some 2018, some 2019, none]

/-- The folds time_folds emits on rowsWithNan. -/
def foldsWithNan : List Fold :=
  [{ train := [0, 1, 2], val := [3], year := 2018 },
   { train := [0, 1, 2, 3], val := [4], year := 2019 }]

/-- Witness for claim C10 at a concrete dataset: the NaN row (index 5) is
in neither index set of the first fold but is refit on in full training. -/
theorem C10_witness :
    (5 ∉ (Fold.mk [0, 1, 2] [3] 2018).train ∧ 5 ∉ (Fold.mk [0, 1, 2] [3] 2018).val) ∧
      5 ∈ fullRefitRows 6 :=
  ⟨(C10_nan_year_rows_excluded true rowsWithNan foldsWithNan (by decide) 5 (by decide)
      (by decide)).1 (Fold.mk [0, 1, 2] [3] 2018) (by decide),
   (C10_nan_year_rows_excluded true rowsWithNan foldsWithNan (by decide) 5 (by decide)
      (by decide)).2⟩

/-- The out-of-fold cell of one base learner at row i, as written by
get_oof_predictions: the array starts as np.full(len(y), np.nan) and each
fold writes oof_preds[name][val_idx] = probs, so the final cell holds the
value of the last fold whose validate set contains i, or NaN (none) when no
fold validates i. -/
def oofValue (fs : List Fold) (pred : Fold → ℕ → ℚ) (i : ℕ) : Option ℚ :=
  ((fs.filter (fun f => decide (i ∈ f.val))).getLast?).map (fun f => pred f i)

theorem mem_distinctYears {rows : List (Option ℤ)} {y : ℤ} :
    y ∈ distinctYears rows ↔ some y ∈ rows := by
  rw [distinctYears, (List.perm_insertionSort _ _).mem_iff, List.mem_dedup,
    List.mem_filterMap]
  constructor
  · rintro ⟨a, ha, hay⟩
    rwa [show a = some y from hay] at ha
  · intro h
    exact ⟨some y, h, rfl⟩

theorem distinctYears_nodup (rows : List (Option ℤ)) :
    (distinctYears rows).Nodup :=
  ((List.perm_insertionSort _ _).nodup_iff).mpr (List.nodup_dedup _)

theorem distinctYears_sorted_lt (rows : List (Option ℤ)) :
    (distinctYears rows).Sorted (fun a b => a < b) := by
  have hs : (distinctYears rows).Sorted (fun a b => a ≤ b) :=
    List.sorted_insertionSort _ _
  have hn : (distinctYears rows).Nodup := distinctYears_nodup rows
  exact (hs.and hn).imp (fun h => lt_of_le_of_ne h.1 h.2)

theorem distinctYears_take_lt_drop (rows : List (Option ℤ)) {k : ℕ} {a y : ℤ}
    (ha : a ∈ (distinctYears rows).take k) (hy : y ∈ (distinctYears rows).drop k) :
    a < y := by
  have hs : (distinctYears rows).Sorted (fun x z => x < z) := distinctYears_sorted_lt rows
  rw [← List.take_append_drop k (distinctYears rows)] at hs
  exact (List.pairwise_append.mp hs).2.2 a ha y hy

theorem getD_lt_length {l : List (Option ℤ)} {i : ℕ} {y : ℤ}
    (h : l.getD i none = some y) : i < l.length := by
  by_contra hc
  rw [List.getD_eq_default _ _ (Nat.le_of_not_lt hc)] at h
  cases h

theorem exists_idx_of_mem {l : List (Option ℤ)} {x : Option ℤ} (h : x ∈ l) :
    ∃ i, i < l.length ∧ l.getD i none = x := by
  obtain ⟨i, hi, hget⟩ := List.mem_iff_getElem.mp h
  refine ⟨i, hi, ?_⟩
  rw [List.getD_eq_getElem _ _ hi]
  exact hget

theorem foldYears_guards (rows : List (Option ℤ))
    (hlen : 5 ≤ (distinctYears rows).length) :
    ∀ y ∈ (distinctYears rows).drop 3,
      trainIdx rows y ≠ [] ∧ valIdx rows y ≠ [] := by
  intro y hy
  constructor
  · have htake : (distinctYears rows).take 3 ≠ [] := by
      have h3 : ((distinctYears rows).take 3).length = 3 := by
        rw [List.length_take]
        omega
      intro hnil
      rw [hnil] at h3
      simp at h3
    obtain ⟨a, ha⟩ := List.exists_mem_of_ne_nil _ htake
    have hay : a < y := distinctYears_take_lt_drop rows ha hy
    have hmem : some a ∈ rows := mem_distinctYears.mp (List.mem_of_mem_take ha)
    obtain ⟨i, hi, hgi⟩ := exists_idx_of_mem hmem
    exact List.ne_nil_of_mem (mem_trainIdx.mpr ⟨hi, a, hgi, hay⟩)
  · have hmem : some y ∈ rows := mem_distinctYears.mp (List.mem_of_mem_drop hy)
    obtain ⟨i, hi, hgi⟩ := exists_idx_of_mem hmem
    exact List.ne_nil_of_mem (mem_valIdx.mpr ⟨hi, hgi⟩)

theorem foldsFor_cons {rows : List (Option ℤ)} {y : ℤ} {ys : List ℤ}
    (hy : trainIdx rows y ≠ [] ∧ valIdx rows y ≠ []) :
    foldsFor rows (y :: ys) =
      { train := trainIdx rows y, val := valIdx rows y, year := y } :: foldsFor rows ys := by
  unfold foldsFor
  rw [List.filterMap_cons, if_pos hy]

theorem foldsFor_eq_map {rows : List (Option ℤ)} {ys : List ℤ}
    (h : ∀ y ∈ ys, trainIdx rows y ≠ [] ∧ valIdx rows y ≠ []) :
    foldsFor rows ys =
      ys.map (fun y => { train := trainIdx rows y, val := valIdx rows y, year := y }) := by
  induction ys with
  | nil => rfl
  | cons y ys ih =>
    rw [foldsFor_cons (h y (List.mem_cons_self y ys)), List.map_cons]
    rw [ih (fun z hz => h z (List.mem_cons_of_mem y hz))]

theorem countP_eq_one_of_nodup {l : List ℤ} (hn : l.Nodup) {y : ℤ} (hy : y ∈ l) :
    l.countP (fun x => decide (x = y)) = 1 := by
  induction l with
  | nil => cases hy
  | cons a l ih =>
    rw [List.countP_cons]
    rcases List.mem_cons.mp hy with h | h
    · subst h
      have hz : l.countP (fun x => decide (x = y)) = 0 := by
        rw [List.countP_eq_zero]
        intro x hx
        simp only [decide_eq_true_eq]
        intro hxy
        subst hxy
        exact (List.nodup_cons.mp hn).1 hx
      simp [hz]
    · have hne : a ≠ y := by
        rintro rfl
        exact (List.nodup_cons.mp hn).1 h
      rw [ih (List.nodup_cons.mp hn).2 h]
      simp [hne]

/-- Claim C2: across one time based generator pass, a history row whose
year is one of the distinct buckets from index 3 on is validated in exactly
one fold, a row in one of the first three buckets is validated in no fold,
every out-of-fold cell is written at most once, and a row never validated
keeps its NaN initialization. -/
theorem C2_full_coverage_single_assignment
    (rows : List (Option ℤ)) (fs : List Fold)
    (hfs : time_folds true rows = some fs) :
    (∀ i y, rows.getD i none = some y → y ∈ (distinctYears rows).drop 3 →
      fs.countP (fun f => decide (i ∈ f.val)) = 1) ∧
    (∀ i y, rows.getD i none = some y → y ∈ (distinctYears rows).take 3 →
      ∀ f ∈ fs, i ∉ f.val) ∧
    (∀ i, fs.countP (fun f => decide (i ∈ f.val)) ≤ 1) ∧
    (∀ pred i, (∀ f ∈ fs, i ∉ f.val) → oofValue fs pred i = none) := by
  obtain ⟨-, hlen, hfsval⟩ := time_folds_eq hfs
  have hg := foldYears_guards rows hlen
  have hmap : fs = ((distinctYears rows).drop 3).map
      (fun y => { train := trainIdx rows y, val := valIdx rows y, year := y }) := by
    rw [hfsval]
    exact foldsFor_eq_map hg
  have hnd : ((distinctYears rows).drop 3).Nodup :=
    (distinctYears_nodup rows).sublist (List.drop_sublist 3 _)
  have hcount : ∀ i y, rows.getD i none = some y →
      fs.countP (fun f => decide (i ∈ f.val)) =
        ((distinctYears rows).drop 3).countP (fun z => decide (z = y)) := by
    intro i y hiy
    rw [hmap, List.countP_map]
    apply List.countP_congr
    intro z hz
    simp only [Function.comp, decide_eq_true_eq]
    rw [mem_valIdx]
    constructor
    · rintro ⟨-, h2⟩
      rw [hiy] at h2
      exact (Option.some_inj.mp h2).symm
    · rintro rfl
      exact ⟨getD_lt_length hiy, hiy⟩
  have hone : ∀ i y, rows.getD i none = some y → y ∈ (distinctYears rows).drop 3 →
      fs.countP (fun f => decide (i ∈ f.val)) = 1 := by
    intro i y hiy hy
    rw [hcount i y hiy]
    exact countP_eq_one_of_nodup hnd hy
  refine ⟨hone, ?_, ?_, ?_⟩
  · intro i y hiy hy f hf hival
    rw [hmap] at hf
    obtain ⟨z, hz, hfz⟩ := List.mem_map.mp hf
    subst hfz
    obtain ⟨-, h2⟩ := mem_valIdx.mp hival
    rw [hiy] at h2
    have hyz : y = z := Option.some_inj.mp h2
    have : y < z := distinctYears_take_lt_drop rows hy hz
    omega
  · intro i
    cases hx : rows.getD i none with
    | none =>
      have hz : fs.countP (fun f => decide (i ∈ f.val)) = 0 := by
        rw [List.countP_eq_zero]
        intro f hf
        rw [hmap] at hf
        obtain ⟨z, hz, hfz⟩ := List.mem_map.mp hf
        subst hfz
        simp only [decide_eq_true_eq]
        intro hival
        obtain ⟨-, h2⟩ := mem_valIdx.mp hival
        rw [hx] at h2
        cases h2
      omega
    | some y =>
      by_cases hy : y ∈ (distinctYears rows).drop 3
      · rw [hone i y hx hy]
      · have hz : fs.countP (fun f => decide (i ∈ f.val)) = 0 := by
          rw [hcount i y hx, List.countP_eq_zero]
          intro z hz
          simp only [decide_eq_true_eq]
          rintro rfl
          exact hy hz
        omega
  · intro pred i h
    rw [oofValue, List.filter_eq_nil_iff.mpr ?_]
    · rfl
    · intro f hf
      simp only [decide_eq_true_eq]
      exact h f hf

/-- Witness for claim C2 at a concrete dataset: row 3 (year 2018) is
validated by exactly one of the two folds, and row 0 (year 2015, before the
threshold) keeps its NaN out-of-fold cell. -/
theorem C2_witness :
    foldsFive.countP (fun f => decide (3 ∈ f.val)) = 1 ∧
      oofValue foldsFive (fun _ _ => 0) 0 = none :=
  ⟨(C2_full_coverage_single_assignment rowsFive foldsFive (by decide)).1 3 2018
      (by decide) (by decide),
   (C2_full_coverage_single_assignment rowsFive foldsFive (by decide)).2.2.2
      (fun _ _ => 0) 0 (by decide)⟩

/-- A pandas column of the training table: its name, whether its dtype is
numeric, and its values (none models a NaN entry). -/
structure Column where
  name : String
  numeric : Bool
  vals : List (Option ℚ)
deriving DecidableEq

/-- The exclude_cols set of select_features (train_v4_models.py) and
prepare_data (train_v4_tuned.py). -/
def exclude_cols : List String :=
  ["home_won", "game_pk", "game_date", "year", "home_team_id", "away_team_id",
   "home_team", "away_team", "home_team_name", "away_team_name", "season"]

/-- numeric_cols followed by the exclusion filter: the feature column
selection shared by select_features and prepare_data. -/
def feature_cols (train : List Column) : List String :=
  ((train.filter (fun c => c.numeric)).map (fun c => c.name)).filter
    (fun n => decide (n ∉ exclude_cols))

/-- Lookup of a named column value list (df[col]). -/
def colVals (t : List Column) (n : String) : List (Option ℚ) :=
  match t.find? (fun c => c.name == n) with
  | some c => c.vals
  | none => []

/-- pandas Series.median(): NaN entries are skipped, the remaining values
are sorted, and the central value (or the mean of the two central values
for an even count) is returned; an all-missing column gives NaN (none). -/
def median (xs : List ℚ) : Option ℚ :=
  let s := xs.insertionSort (fun a b => a ≤ b)
  if s.length = 0 then none
  else if s.length % 2 = 1 then some (s.getD (s.length / 2) 0)
  else some ((s.getD (s.length / 2 - 1) 0 + s.getD (s.length / 2) 0) / 2)

/-- Series.fillna(v): each missing entry becomes v, present entries are
kept; filling with NaN (none) leaves a missing entry missing. -/
def fillna (v : Option ℚ) (xs : List (Option ℚ)) : List (Option ℚ) :=
  xs.map (fun x => match x with | none => v | some a => some a)

/-- fill_values[col] = train_df[col].median(): the fill statistic is
computed from the history table only. -/
def fill_value (train : List Column) (n : String) : Option ℚ :=
  median ((colVals train n).filterMap id)

/-- train_df[col] = train_df[col].fillna(fill_val). -/
def filledTrainCol (train : List Column) (n : String) : List (Option ℚ) :=
  fillna (fill_value train n) (colVals train n)

/-- val_df[col] = val_df[col].fillna(fill_val) with fill_val from the
history table. -/
def filledValCol (train val : List Column) (n : String) : List (Option ℚ) :=
  fillna (fill_value train n) (colVals val n)

/-- select_features / prepare_data as a fallible computation: the Python
bodies contain no raise statement and no check on the number of selected
features, so the embedding always returns the selected list. -/
def select_features (train : List Column) : Except String (List String) :=
  Except.ok (feature_cols train)

/-- A history table whose only columns are the label and a non-numeric
name column: zero usable feature columns remain. -/
def tableNoFeatures : List Column :=
  [{ name := "home_won", numeric := true, vals := [some 1, some 0] },
   { name := "home_team_name", numeric := false, vals := [none, none] }]

/-- Counterexample to claim C6: with zero usable feature columns the
loader returns normally with an empty feature list instead of failing. -/
theorem C6_counterexample :
    feature_cols tableNoFeatures = [] ∧
      select_features tableNoFeatures = Except.ok [] := by
  constructor <;> rfl

/-- Amended claim C6: the loader performs no minimum-feature validation
and has no failure path: it always returns the selected feature list, and
that list is empty precisely when every history column is non-numeric or
in the exclusion set. -/
theorem C6_no_schema_error (train : List Column) :
    select_features train = Except.ok (feature_cols train) ∧
      (feature_cols train = [] ↔
        ∀ c ∈ train, c.numeric = false ∨ c.name ∈ exclude_cols) := by
  refine ⟨rfl, ?_⟩
  rw [feature_cols]
  constructor
  · intro h c hc
    by_cases hnum : c.numeric = true
    · by_cases hex : c.name ∈ exclude_cols
      · exact Or.inr hex
      · exfalso
        have hmem : c.name ∈
            (((train.filter (fun c => c.numeric)).map (fun c => c.name)).filter
              (fun n => decide (n ∉ exclude_cols))) := by
          apply List.mem_filter.mpr
          refine ⟨List.mem_map.mpr ⟨c, List.mem_filter.mpr ⟨hc, hnum⟩, rfl⟩, ?_⟩
          simp [hex]
        rw [h] at hmem
        cases hmem
    · exact Or.inl (by revert hnum; cases c.numeric <;> simp)
  · intro h
    rw [List.filter_eq_nil_iff]
    intro n hn
    obtain ⟨c, hcf, rfl⟩ := List.mem_map.mp hn
    obtain ⟨hc, hcnum⟩ := List.mem_filter.mp hcf
    rcases h c hc with h1 | h1
    · rw [h1] at hcnum
      cases hcnum
    · simp [h1]

/-- Witness for the amended claim C6: the loader returns normally on the
zero-feature table. -/
theorem C6_witness :
    select_features tableNoFeatures = Except.ok (feature_cols tableNoFeatures) :=
  (C6_no_schema_error tableNoFeatures).1

theorem fillna_getD {v : Option ℚ} {xs : List (Option ℚ)} {i : ℕ}
    (hi : i < xs.length) :
    (fillna v xs).getD i none =
      match xs.getD i none with
      | none => v
      | some a => some a := by
  rw [fillna, List.getD_eq_getElem _ _ (by rw [List.length_map]; exact hi),
    List.getElem_map, List.getD_eq_getElem _ _ hi]

/-- Claim C8: for a selected feature column, the fill statistic is the
median of the history column alone; after filling, every missing entry in
both partitions holds exactly that fill value, present entries are kept,
and the fill applied to any future partition is the history-derived value
(the future partition never influences the statistic). -/
theorem C8_median_fill_from_history
    (train val : List Column) (n : String) (_hn : n ∈ feature_cols train) :
    fill_value train n = median ((colVals train n).filterMap id) ∧
    (∀ i, i < (colVals train n).length → (colVals train n).getD i none = none →
      (filledTrainCol train n).getD i none = fill_value train n) ∧
    (∀ i, i < (colVals val n).length → (colVals val n).getD i none = none →
      (filledValCol train val n).getD i none = fill_value train n) ∧
    (∀ i a, i < (colVals val n).length → (colVals val n).getD i none = some a →
      (filledValCol train val n).getD i none = some a) ∧
    (∀ valAlt : List Column, filledValCol train valAlt n =
      fillna (fill_value train n) (colVals valAlt n)) := by
  refine ⟨rfl, fun i hi hmiss => ?_, fun i hi hmiss => ?_, fun i a hi hsome => ?_,
    fun valAlt => rfl⟩
  · rw [filledTrainCol, fillna_getD hi, hmiss]
  · rw [filledValCol, fillna_getD hi, hmiss]
  · rw [filledValCol, fillna_getD hi, hsome]

/-- A small concrete history table for the loader witnesses. -/
def trainSmall : List Column :=
  [{ name := "home_won", numeric := true, vals := [some 1, some 0, some 1] },
   { name := "home_avg", numeric := true, vals := [some 1, none, some 3] }]

/-- A small concrete future table sharing the schema of trainSmall. -/
def valSmall : List Column :=
  [{ name := "home_won", numeric := true, vals := [some 0] },
   { name := "home_avg", numeric := true, vals := [none] }]

/-- Witness for claim C8: the missing entries of the home_avg column in
both partitions are filled with the history median. -/
theorem C8_witness :
    (filledTrainCol trainSmall "home_avg").getD 1 none =
        fill_value trainSmall "home_avg" ∧
      (filledValCol trainSmall valSmall "home_avg").getD 0 none =
        fill_value trainSmall "home_avg" :=
  ⟨(C8_median_fill_from_history trainSmall valSmall "home_avg" (by decide)).2.1 1
      (by decide) (by decide),
   (C8_median_fill_from_history trainSmall valSmall "home_avg" (by decide)).2.2.1 0
      (by decide) (by decide)⟩

/-- A scheduled game row as fetched by get_games_for_date: the fields the
predictor reads while preparing features. -/
structure GameRow where
  month : ℚ
  dayOfWeek : ℚ
deriving DecidableEq

/-- GamePredictor.compute_team_recent_form: returns the fixed baseline
value 0.54 regardless of team or date. -/
def compute_team_recent_form : ℚ := 54 / 100

/-- The feature names prepare_features_for_game handles explicitly; every
other name reaches the final else branch. -/
def knownFeatures : List String :=
  ["home_win_pct_10d", "away_win_pct_10d", "month", "day_of_week", "is_home"]

/-- The per-feature branch chain of prepare_features_for_game. -/
def featureValue (row : GameRow) (f : String) : ℚ :=
  if f == "home_win_pct_10d" then compute_team_recent_form
  else if f == "away_win_pct_10d" then compute_team_recent_form
  else if f == "month" then row.month
  else if f == "day_of_week" then row.dayOfWeek
  else if f == "is_home" then 1
  else 0

/-- GamePredictor.prepare_features_for_game as a fallible computation: the
body raises nothing; it builds one value for each artifact feature name. -/
def prepare_features_for_game (features : List String) (row : GameRow) :
    Except String (List (String × ℚ)) :=
  Except.ok (features.map (fun f => (f, featureValue row f)))

/-- predict_game: X is assembled in the artifact feature order. -/
def predict_input_vector (features : List String) (row : GameRow) : List ℚ :=
  features.map (featureValue row)

/-- An artifact feature order containing a feature the inference data
cannot supply. -/
def artifactFeatures : List String := ["month", "team_batting_avg"]

/-- A concrete scheduled game row. -/
def gameRowApril : GameRow := { month := 4, dayOfWeek := 2 }

/-- Counterexample to claim C7: an artifact feature absent from the game
data is silently defaulted to 0.0 and inference returns normally; no
SchemaMismatchError is raised. -/
theorem C7_counterexample :
    prepare_features_for_game artifactFeatures gameRowApril =
      Except.ok [("month", 4), ("team_batting_avg", 0)] := by
  rfl

/-- Amended claim C7: loading and inference never raise a schema error:
prepare_features_for_game always succeeds, the vector is rebuilt by name
in the artifact recorded order, and every feature outside the known set is
silently defaulted to 0.0. -/
theorem C7_silent_default (features : List String) (row : GameRow) :
    prepare_features_for_game features row =
      Except.ok (features.map (fun f => (f, featureValue row f))) ∧
    (∀ f ∈ features, f ∉ knownFeatures → featureValue row f = 0) ∧
    predict_input_vector features row = features.map (featureValue row) := by
  refine ⟨rfl, fun f hf hunk => ?_, rfl⟩
  have h1 : f ≠ "home_win_pct_10d" := fun h => hunk (by rw [h]; decide)
  have h2 : f ≠ "away_win_pct_10d" := fun h => hunk (by rw [h]; decide)
  have h3 : f ≠ "month" := fun h => hunk (by rw [h]; decide)
  have h4 : f ≠ "day_of_week" := fun h => hunk (by rw [h]; decide)
  have h5 : f ≠ "is_home" := fun h => hunk (by rw [h]; decide)
  rw [featureValue]
  simp [h1, h2, h3, h4, h5]

/-- Witness for the amended claim C7: the unknown artifact feature is
given the default value 0. -/
theorem C7_witness : featureValue gameRowApril "team_batting_avg" = 0 :=
  (C7_silent_default artifactFeatures gameRowApril).2.1 "team_batting_avg"
    (by decide) (by decide)

/-- An optuna study as created by tune_xgb and tune_lgbm: the direction
and the sampler seed. optuna.create_study(direction="maximize") is called
with no sampler argument, so the default TPE sampler is constructed with
seed=None, modelled as none. -/
structure Study where
  direction : String
  samplerSeed : Option ℕ
deriving DecidableEq

/-- optuna.create_study(direction=...) at the call sites of
train_v4_tuned.py: no sampler and hence no seed is supplied. -/
def create_study (direction : String) : Study :=
  { direction := direction, samplerSeed := none }

/-- The study of tune_xgb (train_v4_tuned.py line 133). -/
def xgb_study : Study := create_study "maximize"

/-- The study of tune_lgbm (train_v4_tuned.py line 162). -/
def lgbm_study : Study := create_study "maximize"

/-- Documented optuna sampler semantics: with seed=None the sampler seeds
its random generator from ambient process entropy, with seed=k it is
seeded with k; the trial proposals are a function of this initial state. -/
def sampler_state (s : Study) (entropy : ℕ) : ℕ :=
  s.samplerSeed.getD entropy

/-- The sequence of configurations a trial budget yields, for any proposal
function of the sampler initial state and the trial number. -/
def proposal_sequence (propose : ℕ → ℕ → ℕ) (s : Study) (entropy : ℕ)
    (budget : ℕ) : List ℕ :=
  (List.range budget).map (propose (sampler_state s entropy))

/-- Counterexample to claim C4: the tuning study carries no sampler seed,
so two independent runs drawing different ambient entropy produce
different proposal sequences. -/
theorem C4_counterexample :
    proposal_sequence (fun st _ => st) xgb_study 0 1 ≠
      proposal_sequence (fun st _ => st) xgb_study 1 1 := by
  decide

/-- Amended claim C4: tune_xgb and tune_lgbm create their studies without
a sampler seed, so the proposal sequence depends on ambient entropy; a
study whose sampler seed is set yields the same proposal sequence on every
run regardless of entropy. -/
theorem C4_unseeded_search (propose : ℕ → ℕ → ℕ) (e1 e2 b : ℕ) :
    xgb_study.samplerSeed = none ∧ lgbm_study.samplerSeed = none ∧
    (∀ s : Study, ∀ k : ℕ, s.samplerSeed = some k →
      proposal_sequence propose s e1 b = proposal_sequence propose s e2 b) := by
  refine ⟨rfl, rfl, fun s k hk => ?_⟩
  rw [proposal_sequence, proposal_sequence, sampler_state, sampler_state, hk]
  simp only [Option.getD_some]

/-- Witness for the amended claim C4: a seeded study proposes identically
under two different entropy draws. -/
theorem C4_witness :
    proposal_sequence (fun st t => st + t)
        { direction := "maximize", samplerSeed := some 42 } 0 2 =
      proposal_sequence (fun st t => st + t)
        { direction := "maximize", samplerSeed := some 42 } 1 2 :=
  (C4_unseeded_search (fun st t => st + t) 0 1 2).2.2
    { direction := "maximize", samplerSeed := some 42 } 42 rfl

/-- The per-fold fit and score loop of cv_score_auc: each iteration builds
a model, fits it and computes its AUC, any of which may throw; the loop
has no exception handler, so a failure propagates immediately. -/
def foldScores (fitScore : ℕ → Except String ℚ) : List ℕ → Except String (List ℚ)
  | [] => Except.ok []
  | f :: fs =>
    match fitScore f with
    | Except.error e => Except.error e
    | Except.ok a =>
      match foldScores fitScore fs with
      | Except.error e => Except.error e
      | Except.ok rest => Except.ok (a :: rest)

/-- cv_score_auc (train_v4_tuned.py lines 79-91): mean per-fold AUC, or
the propagated exception of the first failing fold. -/
def cv_score_auc (fitScore : ℕ → Except String ℚ) (folds : List ℕ) :
    Except String ℚ :=
  match foldScores fitScore folds with
  | Except.error e => Except.error e
  | Except.ok aucs => Except.ok ((aucs.foldr (fun a b => a + b) 0) / (aucs.length : ℚ))

/-- study.optimize(objective, n_trials): optuna runs the trials in order
with its default catch=(), so an exception raised by the objective of any
trial propagates and ends the optimize call; otherwise every trial records
its configuration and score. -/
def study_optimize (objective : ℕ → Except String ℚ) :
    List ℕ → Except String (List (ℕ × ℚ))
  | [] => Except.ok []
  | c :: cs =>
    match objective c with
    | Except.error e => Except.error e
    | Except.ok s =>
      match study_optimize objective cs with
      | Except.error e => Except.error e
      | Except.ok rest => Except.ok ((c, s) :: rest)

/-- study.best_params after a completed optimize run: the configuration
with the maximal recorded score, the earliest on ties. -/
def best_config (results : List (ℕ × ℚ)) : Option ℕ :=
  (results.foldl (fun acc p =>
    match acc with
    | none => some p
    | some q => if q.2 < p.2 then some p else some q) none).map (fun p => p.1)

/-- The tuning run of tune_xgb / tune_lgbm: optimize every trial, then
read off the best configuration. -/
def run_study (objective : ℕ → Except String ℚ) (trials : List ℕ) :
    Except String (Option ℕ) :=
  match study_optimize objective trials with
  | Except.error e => Except.error e
  | Except.ok results => Except.ok (best_config results)

/-- An objective whose second proposed configuration throws during fit. -/
def throwingObjective (c : ℕ) : Except String ℚ :=
  if c = 2 then Except.error "ValueError: fit failed" else Except.ok (c : ℚ)

/-- Counterexample to claim C5: one configuration that throws during fit
aborts the whole tuning run with its exception; no worst-value scoring
happens and no best configuration is selected from the remaining trials. -/
theorem C5_counterexample :
    run_study throwingObjective [1, 2, 3] =
        Except.error "ValueError: fit failed" ∧
      ∀ b, run_study throwingObjective [1, 2, 3] ≠ Except.ok b := by
  refine ⟨rfl, fun b h => ?_⟩
  rw [show run_study throwingObjective [1, 2, 3] =
    Except.error "ValueError: fit failed" from rfl] at h
  cases h

/-- Amended claim C5: a configuration that throws during fit or predict
propagates its exception: the per-fold scoring loop of cv_score_auc has no
handler, and study.optimize is invoked with the default empty catch, so
the whole tuning run ends with that exception instead of scoring the trial
as worst and continuing. -/
theorem C5_trial_failure_aborts
    (objective fitScore : ℕ → Except String ℚ) (trials folds : List ℕ)
    (c f : ℕ) (e es : String)
    (hc : c ∈ trials) (he : objective c = Except.error e)
    (hf : f ∈ folds) (hes : fitScore f = Except.error es) :
    (∃ msg, cv_score_auc fitScore folds = Except.error msg) ∧
      ∃ msg, run_study objective trials = Except.error msg := by
  constructor
  · have hscores : ∃ msg, foldScores fitScore folds = Except.error msg := by
      induction folds with
      | nil => cases hf
      | cons a l ih =>
        rcases List.mem_cons.mp hf with rfl | hmem
        · exact ⟨es, by rw [foldScores, hes]⟩
        · cases ha : fitScore a with
          | error e2 => exact ⟨e2, by rw [foldScores, ha]⟩
          | ok v =>
            obtain ⟨msg, hmsg⟩ := ih hmem
            exact ⟨msg, by rw [foldScores, ha, hmsg]⟩
    obtain ⟨msg, hmsg⟩ := hscores
    exact ⟨msg, by rw [cv_score_auc, hmsg]⟩
  · have hopt : ∃ msg, study_optimize objective trials = Except.error msg := by
      induction trials with
      | nil => cases hc
      | cons a l ih =>
        rcases List.mem_cons.mp hc with rfl | hmem
        · exact ⟨e, by rw [study_optimize, he]⟩
        · cases ha : objective a with
          | error e2 => exact ⟨e2, by rw [study_optimize, ha]⟩
          | ok v =>
            obtain ⟨msg, hmsg⟩ := ih hmem
            exact ⟨msg, by rw [study_optimize, ha, hmsg]⟩
    obtain ⟨msg, hmsg⟩ := hopt
    exact ⟨msg, by rw [run_study, hmsg]⟩

/-- A per-fold scorer whose first fold throws. -/
def failingFold (f : ℕ) : Except String ℚ :=
  if f = 0 then Except.error "ValueError: fit failed" else Except.ok 1

/-- Witness for the amended claim C5 at concrete inputs. -/
theorem C5_witness :
    (∃ msg, cv_score_auc failingFold [0, 1] = Except.error msg) ∧
      ∃ msg, run_study throwingObjective [1, 2, 3] = Except.error msg :=
  C5_trial_failure_aborts throwingObjective failingFold [1, 2, 3] [0, 1]
    2 0 "ValueError: fit failed" "ValueError: fit failed"
    (by decide) rfl (by decide) rfl

/-- The base model dict keys of build_base_models, in insertion order. -/
def base_model_names : List String := ["lr", "xgb", "lgbm"]

/-- Lexicographic order on code point sequences: the comparison Python
sorted() applies to strings. -/
def lexLe : List ℕ → List ℕ → Bool
  | [], _ => true
  | _ :: _, [] => false
  | a :: as, b :: bs =>
    if a < b then true
    else if b < a then false
    else lexLe as bs

/-- Python string comparison: lexicographic on code points. -/
def pyStrLe (a b : String) : Bool :=
  lexLe (a.data.map Char.toNat) (b.data.map Char.toNat)

/-- sorted(oof_preds.keys()) from train_meta_model: the fixed ascending
name order of the stacking matrix columns, also returned as meta_order. -/
def meta_order (names : List String) : List String :=
  names.insertionSort (fun a b => pyStrLe a b = true)

/-- One row of the Out-of-Fold Matrix in np.column_stack order: the cell
of each learner for history row i, none for an unfilled (NaN) cell. -/
def oof_row (oof : String → ℕ → Option ℚ) (names : List String) (i : ℕ) :
    List (Option ℚ) :=
  (meta_order names).map (fun nm => oof nm i)

/-- valid_rows = ~np.isnan(oof_matrix).any(axis=1): a history row enters
the meta fit exactly when every one of its cells is filled. -/
def valid_row (oof : String → ℕ → Option ℚ) (names : List String) (i : ℕ) : Bool :=
  (oof_row oof names i).all (fun x => x.isSome)

/-- The history row indices the meta model is fitted on (X_meta, y_meta). -/
def meta_fit_rows (oof : String → ℕ → Option ℚ) (names : List String) (n : ℕ) :
    List ℕ :=
  (List.range n).filter (valid_row oof names)

/-- A base learner modelled extensionally: fitting on a labelled training
set yields its positive class probability function. -/
def Learner (Row : Type) : Type := List (Row × Bool) → Row → ℚ

/-- run lines 196-210: every base model is refit on the whole training
data and val_matrix stacks predict_proba of those refit models, one column
per name of meta_order. -/
def stacked_val_vector {Row : Type} (pool : String → Learner Row)
    (trainData : List (Row × Bool)) (order : List String) (x : Row) : List ℚ :=
  order.map (fun nm => pool nm trainData x)

theorem mem_meta_order {names : List String} {nm : String} :
    nm ∈ meta_order names ↔ nm ∈ names :=
  (List.perm_insertionSort _ _).mem_iff

/-- Claim C9: the stacking matrix columns follow the sorted base learner
names (a fixed deterministic order), only fully filled rows enter the meta
fit, and the holdout inference vector is assembled in that same order from
learners refit on the entire history partition. -/
theorem C9_meta_learner_column_discipline {Row : Type}
    (pool : String → Learner Row) (trainData : List (Row × Bool))
    (oof : String → ℕ → Option ℚ) (n : ℕ) (x : Row) :
    meta_order base_model_names = ["lgbm", "lr", "xgb"] ∧
    (∀ i, i ∈ meta_fit_rows oof base_model_names n ↔
      i < n ∧ ∀ nm ∈ base_model_names, (oof nm i).isSome = true) ∧
    (∀ j, j < (meta_order base_model_names).length →
      (stacked_val_vector pool trainData (meta_order base_model_names) x).getD j 0 =
        pool ((meta_order base_model_names).getD j "") trainData x) := by
  refine ⟨by decide, fun i => ?_, fun j hj => ?_⟩
  · rw [meta_fit_rows, List.mem_filter, List.mem_range]
    constructor
    · rintro ⟨h1, h2⟩
      refine ⟨h1, fun nm hnm => ?_⟩
      exact List.all_eq_true.mp h2 (oof nm i)
        (List.mem_map.mpr ⟨nm, mem_meta_order.mpr hnm, rfl⟩)
    · rintro ⟨h1, h2⟩
      refine ⟨h1, List.all_eq_true.mpr fun v hv => ?_⟩
      obtain ⟨nm, hnm, rfl⟩ := List.mem_map.mp hv
      exact h2 nm (mem_meta_order.mp hnm)
  · rw [stacked_val_vector,
      List.getD_eq_getElem _ _ (by rw [List.length_map]; exact hj),
      List.getElem_map, List.getD_eq_getElem _ _ hj]

/-- Witness for claim C9: the recorded column order on the concrete base
learner pool is the sorted name list. -/
theorem C9_witness : meta_order base_model_names = ["lgbm", "lr", "xgb"] :=
  (@C9_meta_learner_column_discipline Unit (fun _ _ _ => 0) []
    (fun _ _ => some 0) 0 ()).1

end HanksTank
